import Mathlib

/-!
# Verification of the ai-router rate-limit-aware selection core

Shallow embedding of the TypeScript sources of `isaced/ai-router`
(src/utils/tokenEstimator.ts, src/core/usageStorage.ts,
src/core/rateLimitManager.ts, src/core/selectProvider.ts,
src/core/sendRequest.ts) together with theorems about the embedded
definitions.

Modelling conventions:
* `Date.now()` is threaded explicitly as a `now : Nat` parameter
  (milliseconds).
* The in-memory usage store (`MemoryUsageStorage`, a JS `Map`) is an
  association list from identity keys to `UsageData`; all stateful
  operations take and return a `Store`.  JS object aliasing between the
  map and fetched records is observationally irrelevant here because
  every mutation of a fetched record is followed by a `set` of the same
  key (or the record is freshly created).
* JS numbers appearing in the availability score are modelled by
  `JSNum`: either a rational, `nan`, or a signed infinity, with IEEE
  semantics for the multiplications and divisions the code performs.
  Usage counters and token counts are natural numbers.
-/

namespace AIRouter

/-- Rate limiting configuration (types.ts `RateLimit`): optional
requests-per-minute, tokens-per-minute and requests-per-day ceilings. -/
structure RateLimit where
  rpm : Option Nat
  tpm : Option Nat
  rpd : Option Nat
  deriving Repr, DecidableEq

/-- The `lastResetTime` component of `UsageData`: the minute bucket and
day bucket indices current when the counters were last reset. -/
structure ResetTime where
  minute : Nat
  day : Nat
  deriving Repr, DecidableEq

/-- Usage counters for one identity key (types.ts `UsageData`).  The TS
interface declares `id : string`, but `MemoryUsageStorage.increment`
creates records without it (leaving it `undefined`), hence `Option`. -/
structure UsageData where
  id : Option String
  requestsThisMinute : Nat
  tokensThisMinute : Nat
  requestsToday : Nat
  lastResetTime : ResetTime
  deriving Repr, DecidableEq

/-- Account configuration (types.ts `Account`).  `models` also admits
`ModelConfig` objects in TS; the selector passes each entry through
unchanged, and every claim concerns the string form, so entries are
modelled as strings.  `rateLimit` is the per-account limit structure the
rate limit manager reads (`account.rateLimit`). -/
structure Account where
  apiKey : String
  models : List String
  rateLimit : Option RateLimit
  deriving Repr, DecidableEq

/-- Provider configuration (types.ts `Provider`). -/
structure Provider where
  name : String
  type : Option String
  endpoint : Option String
  accounts : List Account
  deriving Repr, DecidableEq

/-- Router configuration (types.ts `AIRouterConfig`); the pluggable
`usageStorage` is threaded separately as a `Store` value. -/
structure AIRouterConfig where
  providers : List Provider
  strategy : Option String
  deriving Repr, DecidableEq

/-- One chat message (role and optional content). -/
structure ChatMessage where
  role : String
  content : Option String
  deriving Repr, DecidableEq

/-- A chat request: a sequence of messages. -/
structure ChatRequest where
  messages : List ChatMessage
  deriving Repr, DecidableEq

/-! ## Token estimator (src/utils/tokenEstimator.ts) -/

/-- The CJK code-point test of `estimateStringTokens` (the listed
Unicode ranges, verbatim from the source). -/
def isCJK (code : Nat) : Bool :=
  (0x4e00 ≤ code && code ≤ 0x9fff) ||    -- CJK Unified Ideographs
  (0x3400 ≤ code && code ≤ 0x4dbf) ||    -- CJK Extension A
  (0x20000 ≤ code && code ≤ 0x2a6df) ||  -- CJK Extension B
  (0x2a700 ≤ code && code ≤ 0x2b73f) ||  -- CJK Extension C
  (0x2b740 ≤ code && code ≤ 0x2b81f) ||  -- CJK Extension D
  (0x2b820 ≤ code && code ≤ 0x2ceaf) ||  -- CJK Extension E
  (0x2ceb0 ≤ code && code ≤ 0x2ebef) ||  -- CJK Extension F
  (0x30000 ≤ code && code ≤ 0x3134f) ||  -- CJK Extension G
  (0x3190 ≤ code && code ≤ 0x319f) ||    -- Kanbun
  (0x3100 ≤ code && code ≤ 0x312f) ||    -- Bopomofo
  (0x31a0 ≤ code && code ≤ 0x31bf) ||    -- Bopomofo Extended
  (0x3040 ≤ code && code ≤ 0x309f) ||    -- Hiragana
  (0x30a0 ≤ code && code ≤ 0x30ff) ||    -- Katakana
  (0xac00 ≤ code && code ≤ 0xd7af)       -- Hangul Syllables

/-- The Latin code-point test of `estimateStringTokens`. -/
def isLatin (code : Nat) : Bool :=
  (0x0020 ≤ code && code ≤ 0x007f) ||    -- Basic Latin
  (0x00a0 ≤ code && code ≤ 0x00ff) ||    -- Latin-1 Supplement
  (0x0100 ≤ code && code ≤ 0x017f) ||    -- Latin Extended-A
  (0x0180 ≤ code && code ≤ 0x024f)       -- Latin Extended-B

/-- The counting loop of `estimateStringTokens`: fold over the code
points accumulating `(cjkCount, latinCount, otherCount)`.  Iterating a
Lean `String` yields code points, matching JS `for (const char of str)`
which is surrogate-pair aware. -/
def classCounts (chars : List Char) : Nat × Nat × Nat :=
  chars.foldl
    (fun acc c =>
      let code := c.toNat
      if isCJK code then (acc.1 + 1, acc.2.1, acc.2.2)
      else if isLatin code then (acc.1, acc.2.1 + 1, acc.2.2)
      else (acc.1, acc.2.1, acc.2.2 + 1))
    (0, 0, 0)

/-- `TokenEstimator.estimateStringTokens`: `if (!str) return 0`, then
count the three classes and return
`cjkCount + ceil(latinCount / 4) + ceil(otherCount / 2)`
(`Math.ceil(n / k) = (n + k - 1) / k` on naturals). -/
def estimateStringTokens (s : String) : Nat :=
  if s.isEmpty then 0
  else
    let counts := classCounts s.data
    counts.1 + (counts.2.1 + 3) / 4 + (counts.2.2 + 1) / 2

/-- `TokenEstimator.estimateInputTokens`: sum the string estimate over
all message contents, treating missing content as the empty string. -/
def estimateInputTokens (request : ChatRequest) : Nat :=
  request.messages.foldl
    (fun tokens msg => tokens + estimateStringTokens (msg.content.getD "")) 0

/-! ## Usage store (src/core/usageStorage.ts `MemoryUsageStorage`) -/

/-- The in-memory store: a JS `Map` from identity key to `UsageData`,
modelled as an association list (insertion order preserved, one entry
per key). -/
abbrev Store := List (String × UsageData)

/-- `Map.get`: the value stored under `k`, or `none`. -/
def Store.get (st : Store) (k : String) : Option UsageData :=
  match List.find? (fun p => p.1 == k) st with
  | some p => some p.2
  | none => none

/-- `Map.set`: replace the value under `k` in place, or append a new
entry. -/
def Store.set (st : Store) (k : String) (v : UsageData) : Store :=
  if List.any st (fun p => p.1 == k) then
    List.map (fun p => if p.1 == k then (k, v) else p) st
  else
    st ++ [(k, v)]

/-- Minute bucket index: `Math.floor(now / 60000)`. -/
def bucketMinute (now : Nat) : Nat := now / 60000

/-- Day bucket index: `Math.floor(now / 86400000)`. -/
def bucketDay (now : Nat) : Nat := now / 86400000

/-- `MemoryUsageStorage.increment`: fetch (or initialize) the record,
apply the two independent window resets, add the deltas, store the
result back, and return it. -/
def memIncrement (st : Store) (accountId : String)
    (requestCount tokenCount : Nat) (now : Nat) : UsageData × Store :=
  let usage :=
    match Store.get st accountId with
    | some u => u
    | none =>
      -- Initialize new usage data (the object literal has no `id` field)
      { id := none
        requestsThisMinute := 0
        tokensThisMinute := 0
        requestsToday := 0
        lastResetTime := { minute := bucketMinute now, day := bucketDay now } }
  -- Reset minute counters
  let usage :=
    if usage.lastResetTime.minute ≠ bucketMinute now then
      { usage with
          requestsThisMinute := 0
          tokensThisMinute := 0
          lastResetTime := { usage.lastResetTime with minute := bucketMinute now } }
    else usage
  -- Reset day counters
  let usage :=
    if usage.lastResetTime.day ≠ bucketDay now then
      { usage with
          requestsToday := 0
          lastResetTime := { usage.lastResetTime with day := bucketDay now } }
    else usage
  -- Increment counters
  let usage :=
    { usage with
        requestsThisMinute := usage.requestsThisMinute + requestCount
        tokensThisMinute := usage.tokensThisMinute + tokenCount
        requestsToday := usage.requestsToday + requestCount }
  (usage, Store.set st accountId usage)

/-! ## Rate limit manager (src/core/rateLimitManager.ts) -/

/-- UTF-16 code units of one code point (JS `charCodeAt` walks UTF-16
units; code points above `0xFFFF` occupy a surrogate pair). -/
def utf16Units (c : Char) : List Nat :=
  if c.toNat < 0x10000 then [c.toNat]
  else
    [0xd800 + (c.toNat - 0x10000) / 0x400,
     0xdc00 + (c.toNat - 0x10000) % 0x400]

/-- JS `ToInt32`: wrap an integer into `[-2^31, 2^31)`. -/
def toInt32 (n : Int) : Int := (n + 2 ^ 31) % 2 ^ 32 - 2 ^ 31

/-- `RateLimitManager.hash`: the iterated 32-bit string hash
`hash = ToInt32(ToInt32(hash << 5) - hash + charCode)` over the UTF-16
units, then `Math.abs(hash).toString()`. -/
def jsHashString (input : String) : String :=
  let h := (input.data.foldl (fun acc c => acc ++ utf16Units c) []).foldl
    (fun h c => toInt32 (toInt32 (h * 32) - h + c)) 0
  h.natAbs.repr

/-- `RateLimitManager.getAccountModelIdentifier`: hash of
`` `${account.apiKey}-${model}` ``. -/
def getAccountModelIdentifier (account : Account) (model : String) : String :=
  jsHashString (account.apiKey ++ "-" ++ model)

/-- `RateLimitManager.getCurrentUsage`: fetch-or-initialize, apply the
two window resets, and persist the record back only when a reset
changed something (`needsUpdate`). -/
def getCurrentUsage (st : Store) (id : String) (now : Nat) :
    UsageData × Store :=
  let usage :=
    match Store.get st id with
    | some u => u
    | none =>
      -- Initialize new usage data (this one does set `id`)
      { id := some id
        requestsThisMinute := 0
        tokensThisMinute := 0
        requestsToday := 0
        lastResetTime := { minute := bucketMinute now, day := bucketDay now } }
  let needsUpdate := false
  -- Reset minute counters
  let (usage, needsUpdate) :=
    if usage.lastResetTime.minute ≠ bucketMinute now then
      ({ usage with
          requestsThisMinute := 0
          tokensThisMinute := 0
          lastResetTime := { usage.lastResetTime with minute := bucketMinute now } },
       true)
    else (usage, needsUpdate)
  -- Reset day counters
  let (usage, needsUpdate) :=
    if usage.lastResetTime.day ≠ bucketDay now then
      ({ usage with
          requestsToday := 0
          lastResetTime := { usage.lastResetTime with day := bucketDay now } },
       true)
    else (usage, needsUpdate)
  -- Save back if we made changes
  if needsUpdate then (usage, Store.set st id usage) else (usage, st)

/-- `RateLimitManager.canHandleRequest`: `true` with no `rateLimit`;
otherwise `false` as soon as one configured ceiling is violated on the
post-reset usage. -/
def canHandleRequest (account : Account) (model : String)
    (estimatedTokens : Nat) (st : Store) (now : Nat) : Bool × Store :=
  match account.rateLimit with
  | none => (true, st)  -- No limits configured
  | some limits =>
    let accountId := getAccountModelIdentifier account model
    let (usage, st) := getCurrentUsage st accountId now
    -- Check RPM
    if limits.rpm.isSome && usage.requestsThisMinute ≥ limits.rpm.getD 0 then
      (false, st)
    -- Check TPM
    else if limits.tpm.isSome &&
        usage.tokensThisMinute + estimatedTokens > limits.tpm.getD 0 then
      (false, st)
    -- Check RPD
    else if limits.rpd.isSome && usage.requestsToday ≥ limits.rpd.getD 0 then
      (false, st)
    else
      (true, st)

/-- `RateLimitManager.recordRequest`: use the storage's atomic
`increment` when the backend has one (`hasIncrement`), else fall back to
read-modify-write through `getCurrentUsage` and `set`. -/
def recordRequest (account : Account) (model : String) (tokensUsed : Nat)
    (hasIncrement : Bool) (st : Store) (now : Nat) : Store :=
  let accountId := getAccountModelIdentifier account model
  if hasIncrement then
    (memIncrement st accountId 1 tokensUsed now).2
  else
    let (usage, st) := getCurrentUsage st accountId now
    let usage :=
      { usage with
          requestsThisMinute := usage.requestsThisMinute + 1
          tokensThisMinute := usage.tokensThisMinute + tokensUsed
          requestsToday := usage.requestsToday + 1 }
    Store.set st accountId usage

/-- `RateLimitManager.getUsage`: read path used for monitoring.  Its TS
return type is `UsageData | null`, but the implementation always
returns the (possibly freshly initialized) record from
`getCurrentUsage`. -/
def getUsage (account : Account) (model : String) (st : Store)
    (now : Nat) : Option UsageData × Store :=
  let accountId := getAccountModelIdentifier account model
  let (usage, st) := getCurrentUsage st accountId now
  (some usage, st)

/-! ## JS floating-point values for the availability score

The score computation can divide zero by zero (a configured ceiling of
`0`), which in JS produces `NaN`; `NaN` then propagates through the
multiplications.  `JSNum` models the values that can arise: finite
numbers (as exact rationals — every quantity here is a ratio of small
integers, so no rounding occurs), `NaN`, and the two infinities. -/
inductive JSNum where
  | num : ℚ → JSNum
  | nan : JSNum
  | inf : JSNum
  | negInf : JSNum
  deriving Repr, DecidableEq

/-- IEEE multiplication on `JSNum`. -/
def JSNum.mul : JSNum → JSNum → JSNum
  | nan, _ => nan
  | num _, nan => nan
  | inf, nan => nan
  | negInf, nan => nan
  | num a, num b => num (a * b)
  | inf, num b => if b = 0 then nan else if 0 < b then inf else negInf
  | num a, inf => if a = 0 then nan else if 0 < a then inf else negInf
  | negInf, num b => if b = 0 then nan else if 0 < b then negInf else inf
  | num a, negInf => if a = 0 then nan else if 0 < a then negInf else inf
  | inf, inf => inf
  | inf, negInf => negInf
  | negInf, inf => negInf
  | negInf, negInf => inf

/-- IEEE division of two finite JS numbers (the only division the score
code performs): `0/0 = NaN`, `±x/0 = ±Infinity`, else exact. -/
def jsDiv (a b : ℚ) : JSNum :=
  if b = 0 then
    (if a = 0 then JSNum.nan else if 0 < a then JSNum.inf else JSNum.negInf)
  else JSNum.num (a / b)

/-- `RateLimitManager.getAvailabilityScore`: `1.0` with no `rateLimit`;
otherwise start from `1.0` and multiply in
`max(0, ceiling - used) / ceiling` for each configured dimension. -/
def getAvailabilityScore (account : Account) (model : String)
    (st : Store) (now : Nat) : JSNum × Store :=
  match account.rateLimit with
  | none => (JSNum.num 1, st)  -- No limits = highest score
  | some limits =>
    let accountId := getAccountModelIdentifier account model
    let (usage, st) := getCurrentUsage st accountId now
    let score := JSNum.num 1
    -- RPM availability
    let score :=
      match limits.rpm with
      | some rpm =>
        score.mul (jsDiv (max 0 ((rpm : ℚ) - usage.requestsThisMinute)) rpm)
      | none => score
    -- TPM availability
    let score :=
      match limits.tpm with
      | some tpm =>
        score.mul (jsDiv (max 0 ((tpm : ℚ) - usage.tokensThisMinute)) tpm)
      | none => score
    -- RPD availability
    let score :=
      match limits.rpd with
      | some rpd =>
        score.mul (jsDiv (max 0 ((rpd : ℚ) - usage.requestsToday)) rpd)
      | none => score
    (score, st)

/-- `RateLimitManager.estimateTokens` as invoked by the selector (no
model argument): delegate to `estimateInputTokens`.  (The with-model
branch would call `estimateTokensByModel`, a method absent from the
current `TokenEstimator`; no caller in the selection path passes a
model.) -/
def estimateTokens (request : ChatRequest) : Nat :=
  estimateInputTokens request

/-! ## Provider selector (src/core/selectProvider.ts) -/

/-- `ProviderModelWithAccount`: one flattened candidate.  The base
`ProviderModel` carries no account; `sendRequest` checks for its
presence at runtime, hence `Option`. -/
structure ProviderModel where
  model : String
  endpoint : String
  apiKey : String
  account : Option Account
  deriving Repr, DecidableEq

/-- JS `a || b` on an optional string: `undefined` and `""` are both
falsy. -/
def jsOrString (a : Option String) (b : String) : String :=
  match a with
  | none => b
  | some s => if s = "" then b else s

/-- The flattening `providers.flatMap(p => p.accounts.flatMap(a =>
a.models.map(m => ...)))`: deterministic provider → account → model
order. -/
def flattenCandidates (config : AIRouterConfig) : List ProviderModel :=
  config.providers.foldr
    (fun provider rest =>
      provider.accounts.foldr
        (fun account rest2 =>
          account.models.map
            (fun model =>
              { model := model
                endpoint := jsOrString provider.endpoint "https://api.openai.com/v1"
                apiKey := account.apiKey
                account := some account }) ++ rest2)
        [] ++ rest)
    []

/-- The admissibility filter loop of `selectRateLimitAwareProvider`:
call `canHandleRequest` for each candidate in order (threading the
store, since each check may persist a window reset) and keep the
admissible ones. -/
def filterAdmissible (candidates : List ProviderModel)
    (estimatedTokens : Nat) (st : Store) (now : Nat) :
    List ProviderModel × Store :=
  match candidates with
  | [] => ([], st)
  | pm :: rest =>
    let (ok, st) :=
      match pm.account with
      | some a => canHandleRequest a pm.model estimatedTokens st now
      | none => (true, st)
      -- flattened candidates always carry their account; the none branch is unreachable
    let (tail, st) := filterAdmissible rest estimatedTokens st now
    (if ok then pm :: tail else tail, st)

/-- The scoring loop of `selectRateLimitAwareProvider`: compute the
availability score of each admissible candidate in order, threading the
store. -/
def scoreCandidates (candidates : List ProviderModel) (st : Store)
    (now : Nat) : List (ProviderModel × JSNum) × Store :=
  match candidates with
  | [] => ([], st)
  | pm :: rest =>
    let (score, st) :=
      match pm.account with
      | some a => getAvailabilityScore a pm.model st now
      | none => (JSNum.num 1, st)
      -- flattened candidates always carry their account; the none branch is unreachable
    let (tail, st) := scoreCandidates rest st now
    ((pm, score) :: tail, st)

/-- Strict "greater score" as decided by the sort comparator
`(a, b) => b.score - a.score`: `x` must precede `y` exactly when the
comparator is negative, i.e. when `x`'s score is strictly greater.
Comparisons involving `NaN` are never negative. -/
def jsScoreGt : JSNum → JSNum → Bool
  | JSNum.nan, _ => false
  | _, JSNum.nan => false
  | JSNum.num a, JSNum.num b => b < a
  | JSNum.inf, JSNum.inf => false
  | JSNum.inf, _ => true
  | _, JSNum.inf => false
  | JSNum.negInf, _ => false
  | JSNum.num _, JSNum.negInf => true

/-- One insertion step of the stable descending sort: place `x` after
every strictly greater element and before the rest (ties keep original
order, `x` being the original-earlier element). -/
def insertByScoreDesc (x : ProviderModel × JSNum) :
    List (ProviderModel × JSNum) → List (ProviderModel × JSNum)
  | [] => [x]
  | y :: ys =>
    if jsScoreGt y.2 x.2 then y :: insertByScoreDesc x ys
    else x :: y :: ys

/-- `scored.sort((a, b) => b.score - a.score)`: ECMAScript
`Array.prototype.sort` is stable, so for a consistent comparator it
computes the same list as this stable insertion sort (descending by
score, ties in original order). -/
def sortByScoreDesc :
    List (ProviderModel × JSNum) → List (ProviderModel × JSNum)
  | [] => []
  | x :: xs => insertByScoreDesc x (sortByScoreDesc xs)

/-- `request ? rateLimitManager.estimateTokens(request) : 0`. -/
def rlaEstimate (request : Option ChatRequest) : Nat :=
  match request with
  | some r => estimateTokens r
  | none => 0

/-- `selectRateLimitAwareProvider`: estimate tokens once, filter to
admissible candidates (error if none), score them, sort descending by
score, and return the first element. -/
def selectRateLimitAwareProvider (providerModels : List ProviderModel)
    (request : Option ChatRequest) (st : Store) (now : Nat) :
    Except String (Option ProviderModel) × Store :=
  let estimatedTokens := rlaEstimate request
  let (availableProviders, st) :=
    filterAdmissible providerModels estimatedTokens st now
  if availableProviders.isEmpty then
    (Except.error "All accounts have exceeded their rate limits", st)
  else
    let (scored, st) := scoreCandidates availableProviders st now
    (Except.ok ((sortByScoreDesc scored).head?.map (fun p => p.1)), st)

/-- JS array indexing `l[i]` for a possibly out-of-range (or negative)
index: `undefined` becomes `none`. -/
def jsIndex (l : List ProviderModel) (i : Int) : Option ProviderModel :=
  if i < 0 then none else l.get? i.toNat

/-- `selectProvider`: empty `providers` list errors immediately;
otherwise flatten and apply the strategy.  `Math.random()` is threaded
as `rand`; `hasManager` models whether a `rateLimitManager` argument
was supplied.  A JS call that resolves to `undefined` (random strategy
over an empty flattened list) is `Except.ok none`. -/
def selectProvider (config : AIRouterConfig) (hasManager : Bool)
    (request : Option ChatRequest) (rand : ℚ) (st : Store) (now : Nat) :
    Except String (Option ProviderModel) × Store :=
  if config.providers.isEmpty then
    (Except.error "No providers configured", st)
  else
    let providerModels := flattenCandidates config
    if config.strategy = some "random" ∨ config.strategy = none then
      (Except.ok (jsIndex providerModels ⌊rand * providerModels.length⌋), st)
    else if config.strategy = some "rate-limit-aware" then
      if !hasManager then
        (Except.error "Rate limit manager is required for rate-limit-aware strategy", st)
      else
        selectRateLimitAwareProvider providerModels request st now
    else
      (Except.error "Unknown strategy", st)

/-! ## Dispatcher (src/core/sendRequest.ts, rate-limit-aware variant)

The network is external: the outcome of `fetch` (and of the subsequent
`response.json()`) is threaded in as a `FetchOutcome` value. -/

/-- Token usage block of a chat completion response. -/
structure CompletionUsage where
  prompt_tokens : Option Nat
  deriving Repr, DecidableEq

/-- The parsed chat completion body, reduced to the fields the
dispatcher reads. -/
structure ChatCompletionData where
  usage : Option CompletionUsage
  deriving Repr, DecidableEq

/-- Outcome of the `fetch` call: either the promise rejects (network
error), or a response arrives with an `ok` flag, status information and
a body whose JSON parse may itself fail. -/
inductive FetchOutcome where
  | fail (message : String)
  | resp (ok : Bool) (status : Nat) (statusText : String)
      (body : Except String ChatCompletionData)
  deriving Repr

/-- Whether usage recording is active: rate-limit-aware strategy
configured, a manager wired up, and the provider model carrying its
account (`config?.strategy === 'rate-limit-aware' && rateLimitManager
&& (providerModel as ProviderModelWithAccount).account`). -/
def recordingEnabled (config : Option AIRouterConfig)
    (hasManager : Bool) (pm : ProviderModel) : Bool :=
  match config with
  | some cfg =>
    cfg.strategy = some "rate-limit-aware" && hasManager && pm.account.isSome
  | none => false

/-- `sendRequest` (rate-limit-aware variant): POST to the provider,
throw on a non-2xx status, parse the body, record usage on success,
and on any error record a zero-token request before rethrowing the
original error.

The source calls `rateLimitManager.recordRequest(account, tokensUsed)`
and `recordRequest(account, 0)` with the tokens count in the `model`
parameter position; JS template interpolation renders that number as
its decimal string inside the identity key, and the `tokensUsed`
parameter falls back to its default `0`. -/
def sendRequest (pm : ProviderModel) (config : Option AIRouterConfig)
    (hasManager : Bool) (hasIncrement : Bool) (outcome : FetchOutcome)
    (st : Store) (now : Nat) :
    Except String ChatCompletionData × Store :=
  -- Even on error, record the request for rate limiting
  let recordFailure : Store → Store := fun st =>
    if recordingEnabled config hasManager pm then
      match pm.account with
      | some account => recordRequest account "0" 0 hasIncrement st now
      | none => st
    else st
  match outcome with
  | FetchOutcome.fail message => (Except.error message, recordFailure st)
  | FetchOutcome.resp ok status statusText body =>
    if !ok then
      (Except.error
        ("Request failed: " ++ toString status ++ " " ++ statusText),
       recordFailure st)
    else
      match body with
      | Except.error e => (Except.error e, recordFailure st)
      | Except.ok data =>
        -- Record usage if rate limiting is enabled
        let tokensUsed :=
          match data.usage with
          | some u => u.prompt_tokens.getD 0
          | none => 0
        let st :=
          if recordingEnabled config hasManager pm then
            match pm.account with
            | some account =>
              recordRequest account (Nat.repr tokensUsed) 0 hasIncrement st now
            | none => st
          else st
        (Except.ok data, st)

/-- The error a given fetch outcome makes `sendRequest` rethrow, if
any: the rejection reason, the `Error` constructed for a non-2xx
status, or the JSON parse failure. -/
def outcomeError : FetchOutcome → Option String
  | FetchOutcome.fail message => some message
  | FetchOutcome.resp ok status statusText body =>
    if !ok then
      some ("Request failed: " ++ toString status ++ " " ++ statusText)
    else
      match body with
      | Except.error e => some e
      | Except.ok _ => none

/-! ## Spec-side definitions

Definitions below follow the wording of the specification (not the
code); theorems relate them to the embedded source functions. -/

/-- The three character classes as the loop classifies a code point
(sequential `if` / `else if` / `else`): CJK wins, then Latin, then
Other.  The CJK and Latin ranges are in fact disjoint. -/
def charClassCJK (c : Char) : Bool := isCJK c.toNat

/-- Latin class of one character (not CJK, in a Latin block). -/
def charClassLatin (c : Char) : Bool := !isCJK c.toNat && isLatin c.toNat

/-- Other class of one character (neither CJK nor Latin). -/
def charClassOther (c : Char) : Bool := !isCJK c.toNat && !isLatin c.toNat

/-- From the spec: `max(0, ceiling - used) / ceiling` for one
configured dimension, as an exact rational. -/
def dimAvailability (ceiling used : Nat) : ℚ :=
  max 0 ((ceiling : ℚ) - used) / ceiling

/-- The contribution of one (possibly unconfigured) dimension to the
spec's availability product: an unset dimension contributes no factor
(written as the multiplicative unit). -/
def optFactor (ceiling : Option Nat) (used : Nat) : ℚ :=
  match ceiling with
  | some c => dimAvailability c used
  | none => 1

/-- From the spec: the availability score as the product of
`max(0, ceiling - used) / ceiling` over exactly the configured
dimensions. -/
def specAvailabilityScore (limits : RateLimit) (u : UsageData) : ℚ :=
  optFactor limits.rpm u.requestsThisMinute
    * optFactor limits.tpm u.tokensThisMinute
    * optFactor limits.rpd u.requestsToday

/-- The admissible candidates of a rate-limit-aware selection, in
flattening order (a view onto the same computation
`selectRateLimitAwareProvider` performs). -/
def rlaAdmissible (config : AIRouterConfig) (request : Option ChatRequest)
    (st : Store) (now : Nat) : List ProviderModel × Store :=
  filterAdmissible (flattenCandidates config) (rlaEstimate request) st now

/-- The scored admissible candidates of a rate-limit-aware selection,
in flattening order (a view onto the same computation
`selectRateLimitAwareProvider` performs). -/
def rlaScored (config : AIRouterConfig) (request : Option ChatRequest)
    (st : Store) (now : Nat) : List (ProviderModel × JSNum) :=
  let (avail, st) := rlaAdmissible config request st now
  (scoreCandidates avail st now).1

/-! ## Concrete sample data for witnesses and counterexamples -/

/-- An account with no rate limit configured. -/
def acctNoLimit : Account :=
  { apiKey := "unlimited-key", models := ["gpt-3.5-turbo"], rateLimit := none }

/-- An account with all three ceilings configured. -/
def acctLimited : Account :=
  { apiKey := "test-api-key-123", models := ["gpt-3.5-turbo"]
    rateLimit := some { rpm := some 10, tpm := some 1000, rpd := some 100 } }

/-- An account whose rpm ceiling is zero. -/
def acctZeroRpm : Account :=
  { apiKey := "k0", models := ["m"], rateLimit := some { rpm := some 0, tpm := none, rpd := none } }

/-- An account whose only configured ceiling is `rpm = 1`. -/
def acctRpmOne : Account :=
  { apiKey := "k1", models := ["m"], rateLimit := some { rpm := some 1, tpm := none, rpd := none } }

/-- Usage of `acctRpmOne` after one recorded request in the current
(zeroth) minute and day windows. -/
def storeRpmOneUsed1 : Store :=
  [(getAccountModelIdentifier acctRpmOne "m",
    { id := none, requestsThisMinute := 1, tokensThisMinute := 0,
      requestsToday := 0, lastResetTime := { minute := 0, day := 0 } })]

/-- Usage of `acctRpmOne` after two recorded requests in the current
(zeroth) minute and day windows. -/
def storeRpmOneUsed2 : Store :=
  [(getAccountModelIdentifier acctRpmOne "m",
    { id := none, requestsThisMinute := 2, tokensThisMinute := 0,
      requestsToday := 0, lastResetTime := { minute := 0, day := 0 } })]

/-- A provider with one account carrying no models, so flattening
yields no candidate although the providers list is non-empty. -/
def cfgNoCandidates : AIRouterConfig :=
  { providers := [{ name := "p", type := none, endpoint := none,
                    accounts := [{ apiKey := "k", models := [], rateLimit := none }] }]
    strategy := some "rate-limit-aware" }

/-- Account "a" with `rpm = 2`, used for the selection witness. -/
def acctA : Account :=
  { apiKey := "key-a", models := ["m"], rateLimit := some { rpm := some 2, tpm := none, rpd := none } }

/-- Account "b" with `rpm = 2`, used for the selection witness. -/
def acctB : Account :=
  { apiKey := "key-b", models := ["m"], rateLimit := some { rpm := some 2, tpm := none, rpd := none } }

/-- Two-account configuration under the rate-limit-aware strategy. -/
def cfgTwoAccounts : AIRouterConfig :=
  { providers := [{ name := "p", type := none, endpoint := some "https://api.test.com/v1",
                    accounts := [acctA, acctB] }]
    strategy := some "rate-limit-aware" }

/-- Store in which account "a" has one request recorded in the current
(zeroth) windows and "b" none. -/
def storeAUsed1 : Store :=
  [(getAccountModelIdentifier acctA "m",
    { id := none, requestsThisMinute := 1, tokensThisMinute := 0,
      requestsToday := 1, lastResetTime := { minute := 0, day := 0 } })]

/-- Rate-limit-aware configuration wrapping `acctLimited`, for the
dispatcher witness. -/
def cfgRla : AIRouterConfig :=
  { providers := [{ name := "p", type := none, endpoint := none, accounts := [acctLimited] }]
    strategy := some "rate-limit-aware" }

/-- The flattened candidate for `acctLimited`. -/
def pmLimited : ProviderModel :=
  { model := "gpt-3.5-turbo", endpoint := "https://api.openai.com/v1",
    apiKey := "test-api-key-123", account := some acctLimited }

/-- Prior usage under the identity key the dispatcher's failure path
records to (`model` position taking the number `0`). -/
def storeFailureKey : Store :=
  [(getAccountModelIdentifier acctLimited "0",
    { id := none, requestsThisMinute := 2, tokensThisMinute := 7,
      requestsToday := 3, lastResetTime := { minute := 0, day := 0 } })]

/-- A stored usage record for `acctLimited`, in the current (zeroth)
windows, for the recording witness. -/
def storeLimitedUsed : Store :=
  [(getAccountModelIdentifier acctLimited "gpt-3.5-turbo",
    { id := none, requestsThisMinute := 4, tokensThisMinute := 40,
      requestsToday := 9, lastResetTime := { minute := 0, day := 0 } })]

/-- A stored usage record one minute behind `now = 60000` (minute
bucket 0 versus current 1) but in the current day bucket. -/
def storeStaleMinute : Store :=
  [("k", { id := none, requestsThisMinute := 5, tokensThisMinute := 123,
           requestsToday := 9, lastResetTime := { minute := 0, day := 0 } })]

/-! # Theorems -/

/-! ## Token estimator -/

/-- A code point in a Latin block is in none of the CJK blocks (the
Latin ranges end at `0x24f`, below every CJK range). -/
theorem isLatin_isCJK_false (code : Nat) (h : isLatin code = true) :
    isCJK code = false := by
  simp only [isLatin, Bool.or_eq_true, Bool.and_eq_true, decide_eq_true_eq] at h
  simp only [isCJK, Bool.or_eq_false_iff, Bool.and_eq_false_iff,
    decide_eq_false_iff_not, not_le]
  omega

/-- The counting loop computes the three class counts. -/
theorem classCounts_eq (l : List Char) :
    classCounts l =
      (l.countP charClassCJK, l.countP charClassLatin, l.countP charClassOther) := by
  suffices h : ∀ a b c : Nat,
      (List.foldl
        (fun acc c =>
          let code := c.toNat
          if isCJK code then (acc.1 + 1, acc.2.1, acc.2.2)
          else if isLatin code then (acc.1, acc.2.1 + 1, acc.2.2)
          else (acc.1, acc.2.1, acc.2.2 + 1))
        (a, b, c) l) =
        (a + l.countP charClassCJK, b + l.countP charClassLatin,
         c + l.countP charClassOther) by
    simpa [classCounts] using h 0 0 0
  induction l with
  | nil => intro a b c; simp
  | cons x xs ih =>
    intro a b c
    by_cases hC : isCJK x.toNat = true
    · simp [hC, ih, List.countP_cons, charClassCJK, charClassLatin,
        charClassOther, Nat.add_assoc, Nat.add_comm 1]
    · by_cases hL : isLatin x.toNat = true
      · simp [hC, hL, ih, List.countP_cons, charClassCJK, charClassLatin,
          charClassOther, Nat.add_assoc, Nat.add_comm 1]
      · simp [hC, hL, ih, List.countP_cons, charClassCJK, charClassLatin,
          charClassOther, Nat.add_assoc, Nat.add_comm 1]

/-- C8: `estimateStringTokens` returns the CJK code-point count plus
`ceil(latinCount / 4)` plus `ceil(otherCount / 2)` for every string (it
is a total function of the code-point sequence); in particular the
empty string costs `0`, a string of Latin-class characters costs
`ceil(N / 4)`, and a string of CJK-class characters costs `N`. -/
theorem estimateStringTokens_spec :
    (∀ s : String,
        estimateStringTokens s =
          s.data.countP charClassCJK
            + (s.data.countP charClassLatin + 3) / 4
            + (s.data.countP charClassOther + 1) / 2)
    ∧ estimateStringTokens "" = 0
    ∧ (∀ s : String, (∀ c ∈ s.data, isLatin c.toNat = true) →
        estimateStringTokens s = (s.length + 3) / 4)
    ∧ (∀ s : String, (∀ c ∈ s.data, isCJK c.toNat = true) →
        estimateStringTokens s = s.length) := by
  have hmain : ∀ s : String,
      estimateStringTokens s =
        s.data.countP charClassCJK
          + (s.data.countP charClassLatin + 3) / 4
          + (s.data.countP charClassOther + 1) / 2 := by
    intro s
    rw [estimateStringTokens]
    by_cases hs : s.isEmpty
    · have hempty : s = "" := (String.isEmpty_iff s).mp hs
      subst hempty
      decide
    · simp [hs, classCounts_eq]
  refine ⟨hmain, by rfl, ?_, ?_⟩
  · intro s hlat
    have hC : s.data.countP charClassCJK = 0 := by
      rw [List.countP_eq_zero]
      intro c hc
      simp [charClassCJK, isLatin_isCJK_false c.toNat (hlat c hc)]
    have hL : s.data.countP charClassLatin = s.data.length := by
      rw [List.countP_eq_length]
      intro c hc
      simp [charClassLatin, isLatin_isCJK_false c.toNat (hlat c hc), hlat c hc]
    have hO : s.data.countP charClassOther = 0 := by
      rw [List.countP_eq_zero]
      intro c hc
      simp [charClassOther, hlat c hc]
    rw [hmain, hC, hL, hO]
    have hlen : s.length = s.data.length := rfl
    omega
  · intro s hcjk
    have hC : s.data.countP charClassCJK = s.data.length := by
      rw [List.countP_eq_length]
      intro c hc
      simp [charClassCJK, hcjk c hc]
    have hL : s.data.countP charClassLatin = 0 := by
      rw [List.countP_eq_zero]
      intro c hc
      simp [charClassLatin, hcjk c hc]
    have hO : s.data.countP charClassOther = 0 := by
      rw [List.countP_eq_zero]
      intro c hc
      simp [charClassOther, hcjk c hc]
    rw [hmain, hC, hL, hO]
    have hlen : s.length = s.data.length := rfl
    omega

/-- Witness for C8: the formula evaluated on concrete strings through
the theorem ("Hello" is five Latin characters, "你好世界" four CJK
characters). -/
theorem estimateStringTokens_spec_witness :
    estimateStringTokens "Hello" = 2 ∧ estimateStringTokens "你好世界" = 4 := by
  constructor
  · have h := estimateStringTokens_spec.2.2.1 "Hello" (by decide)
    simpa using h
  · have h := estimateStringTokens_spec.2.2.2 "你好世界" (by decide)
    simpa using h

/-! ## Store and usage-window lemmas -/

/-- Reading a cons cell: the head is consulted first. -/
theorem store_get_cons (p : String × UsageData) (st : Store) (k : String) :
    Store.get (p :: st) k = if p.1 == k then some p.2 else Store.get st k := by
  by_cases h : (p.1 == k) = true
  · simp [Store.get, List.find?, h]
  · simp only [Bool.not_eq_true] at h
    simp [Store.get, List.find?, h]

/-- Replacing a matching entry in place makes the key map to the new
value. -/
theorem store_get_map_set (st : Store) (k : String) (v : UsageData)
    (h : List.any st (fun p => p.1 == k) = true) :
    Store.get (List.map (fun p => if p.1 == k then (k, v) else p) st) k
      = some v := by
  induction st with
  | nil => simp at h
  | cons q qs ih =>
    rw [List.map_cons, store_get_cons]
    by_cases hq : (q.1 == k) = true
    · simp [hq]
    · simp only [Bool.not_eq_true] at hq
      have hqs : List.any qs (fun p => p.1 == k) = true := by
        simp only [List.any_cons, hq, Bool.false_or] at h
        exact h
      simp only [hq, Bool.false_eq_true, if_false]
      simpa using ih hqs

/-- Appending a fresh entry makes the key map to the new value when no
earlier entry matched. -/
theorem store_get_append (st : Store) (k : String) (v : UsageData)
    (h : List.any st (fun p => p.1 == k) = false) :
    Store.get (st ++ [(k, v)]) k = some v := by
  induction st with
  | nil => simp [store_get_cons, Store.get]
  | cons q qs ih =>
    simp only [List.any_cons, Bool.or_eq_false_iff] at h
    rw [List.cons_append, store_get_cons]
    simp [h.1, ih h.2]

/-- `Map.set` followed by `Map.get` of the same key yields the stored
value. -/
theorem store_get_set_self (st : Store) (k : String) (v : UsageData) :
    Store.get (Store.set st k v) k = some v := by
  by_cases h : List.any st (fun p => p.1 == k) = true
  · simpa [Store.set, h] using store_get_map_set st k v h
  · have h2 : List.any st (fun p => p.1 == k) = false := Bool.eq_false_iff.mpr h
    simpa [Store.set, h2] using store_get_append st k v h2

/-- A stored record whose buckets are current passes through
`getCurrentUsage` unchanged, with no write-back. -/
theorem getCurrentUsage_current (st : Store) (id : String) (now : Nat)
    (u : UsageData) (h : Store.get st id = some u)
    (hm : u.lastResetTime.minute = bucketMinute now)
    (hd : u.lastResetTime.day = bucketDay now) :
    getCurrentUsage st id now = (u, st) := by
  simp [getCurrentUsage, h, hm, hd]

/-- C1: `canHandleRequest` is `true` whenever the account has no
`rateLimit`; with a `rateLimit` it is `false` exactly when, on the
post-reset usage for the identity, some configured ceiling is
violated: `rpm` set with `requestsThisMinute >= rpm`, or `tpm` set with
`tokensThisMinute + estimatedTokens > tpm`, or `rpd` set with
`requestsToday >= rpd`; unset dimensions impose no constraint. -/
theorem canHandleRequest_spec (account : Account) (model : String)
    (est : Nat) (st : Store) (now : Nat) :
    (account.rateLimit = none →
      (canHandleRequest account model est st now).1 = true)
    ∧ ∀ limits, account.rateLimit = some limits →
        ((canHandleRequest account model est st now).1 = false ↔
          (∃ r, limits.rpm = some r ∧ r ≤
            (getCurrentUsage st (getAccountModelIdentifier account model) now).1.requestsThisMinute)
          ∨ (∃ t, limits.tpm = some t ∧ t <
            (getCurrentUsage st (getAccountModelIdentifier account model) now).1.tokensThisMinute + est)
          ∨ (∃ d, limits.rpd = some d ∧ d ≤
            (getCurrentUsage st (getAccountModelIdentifier account model) now).1.requestsToday)) := by
  constructor
  · intro h
    simp [canHandleRequest, h]
  · intro limits h
    rcases limits with ⟨rpm, tpm, rpd⟩
    cases rpm <;> cases tpm <;> cases rpd <;>
      simp only [canHandleRequest, h, Option.isSome_some, Option.isSome_none,
        Option.getD_some, Option.some.injEq, Bool.true_and, Bool.false_and,
        Bool.and_self, if_false, Bool.false_eq_true, decide_eq_true_eq] <;>
      (try split_ifs) <;>
      (try simp_all)

/-- Witness for C1: `acctLimited` (tpm 1000) rejects a request whose
estimate pushes the fresh minute window to 1001 tokens. -/
theorem canHandleRequest_spec_witness :
    (canHandleRequest acctLimited "gpt-3.5-turbo" 1001 [] 0).1 = false := by
  have h := (canHandleRequest_spec acctLimited "gpt-3.5-turbo" 1001 [] 0).2
    { rpm := some 10, tpm := some 1000, rpd := some 100 } rfl
  exact h.mpr (Or.inr (Or.inl ⟨1000, rfl, by decide⟩))

/-- C10: `getUsage` never reports an identity as absent; for an
identity with no stored usage it returns a freshly initialized record
with zero counters and the current minute and day bucket indices. -/
theorem getUsage_never_absent (account : Account) (model : String)
    (st : Store) (now : Nat) :
    (getUsage account model st now).1.isSome = true
    ∧ (Store.get st (getAccountModelIdentifier account model) = none →
        (getUsage account model st now).1 =
          some { id := some (getAccountModelIdentifier account model)
                 requestsThisMinute := 0
                 tokensThisMinute := 0
                 requestsToday := 0
                 lastResetTime := { minute := bucketMinute now, day := bucketDay now } }) := by
  constructor
  · simp [getUsage]
  · intro h
    simp [getUsage, getCurrentUsage, h]

/-- Witness for C10: reading a never-used identity from the empty store
at `now = 5` (bucket indices 0). -/
theorem getUsage_never_absent_witness :
    (getUsage acctNoLimit "gpt-3.5-turbo" [] 5).1 =
      some { id := some (getAccountModelIdentifier acctNoLimit "gpt-3.5-turbo")
             requestsThisMinute := 0
             tokensThisMinute := 0
             requestsToday := 0
             lastResetTime := { minute := 0, day := 0 } } :=
  (getUsage_never_absent acctNoLimit "gpt-3.5-turbo" [] 5).2 rfl

/-- C7: window rollovers are lazy and independent, on the read path
(`getCurrentUsage`) and the increment path (`MemoryUsageStorage.increment`)
alike.  A minute-only rollover zeroes `requestsThisMinute` and
`tokensThisMinute` (before any new deltas on the increment path),
updates the stored minute bucket and leaves `requestsToday` untouched;
a day-only rollover zeroes only `requestsToday` and leaves the minute
counters untouched. -/
theorem windowReset_spec (st : Store) (id : String) (now : Nat) (u : UsageData)
    (h : Store.get st id = some u) :
    (u.lastResetTime.minute ≠ bucketMinute now → u.lastResetTime.day = bucketDay now →
      getCurrentUsage st id now =
        ({ id := u.id, requestsThisMinute := 0, tokensThisMinute := 0,
           requestsToday := u.requestsToday,
           lastResetTime := { minute := bucketMinute now, day := u.lastResetTime.day } },
         Store.set st id
           { id := u.id, requestsThisMinute := 0, tokensThisMinute := 0,
             requestsToday := u.requestsToday,
             lastResetTime := { minute := bucketMinute now, day := u.lastResetTime.day } }))
    ∧ (u.lastResetTime.minute = bucketMinute now → u.lastResetTime.day ≠ bucketDay now →
      getCurrentUsage st id now =
        ({ id := u.id, requestsThisMinute := u.requestsThisMinute,
           tokensThisMinute := u.tokensThisMinute, requestsToday := 0,
           lastResetTime := { minute := u.lastResetTime.minute, day := bucketDay now } },
         Store.set st id
           { id := u.id, requestsThisMinute := u.requestsThisMinute,
             tokensThisMinute := u.tokensThisMinute, requestsToday := 0,
             lastResetTime := { minute := u.lastResetTime.minute, day := bucketDay now } }))
    ∧ (∀ r t : Nat, u.lastResetTime.minute ≠ bucketMinute now → u.lastResetTime.day = bucketDay now →
      memIncrement st id r t now =
        ({ id := u.id, requestsThisMinute := r, tokensThisMinute := t,
           requestsToday := u.requestsToday + r,
           lastResetTime := { minute := bucketMinute now, day := u.lastResetTime.day } },
         Store.set st id
           { id := u.id, requestsThisMinute := r, tokensThisMinute := t,
             requestsToday := u.requestsToday + r,
             lastResetTime := { minute := bucketMinute now, day := u.lastResetTime.day } }))
    ∧ (∀ r t : Nat, u.lastResetTime.minute = bucketMinute now → u.lastResetTime.day ≠ bucketDay now →
      memIncrement st id r t now =
        ({ id := u.id, requestsThisMinute := u.requestsThisMinute + r,
           tokensThisMinute := u.tokensThisMinute + t, requestsToday := r,
           lastResetTime := { minute := u.lastResetTime.minute, day := bucketDay now } },
         Store.set st id
           { id := u.id, requestsThisMinute := u.requestsThisMinute + r,
             tokensThisMinute := u.tokensThisMinute + t, requestsToday := r,
             lastResetTime := { minute := u.lastResetTime.minute, day := bucketDay now } })) := by
  refine ⟨?_, ?_, ?_, ?_⟩
  · intro hm hd
    simp [getCurrentUsage, h, hm, hd]
  · intro hm hd
    simp [getCurrentUsage, h, hm, hd]
  · intro r t hm hd
    simp [memIncrement, h, hm, hd]
  · intro r t hm hd
    simp [memIncrement, h, hm, hd]

/-- Helper shared by several claims: with a stored record in the
current buckets, `recordRequest` (either path) stores back the record
with `requestsThisMinute + 1`, `tokensThisMinute + tokensUsed`,
`requestsToday + 1`. -/
theorem recordRequest_stored (account : Account) (model : String)
    (tokensUsed : Nat) (hasIncrement : Bool) (st : Store) (now : Nat)
    (u : UsageData)
    (h : Store.get st (getAccountModelIdentifier account model) = some u)
    (hm : u.lastResetTime.minute = bucketMinute now)
    (hd : u.lastResetTime.day = bucketDay now) :
    recordRequest account model tokensUsed hasIncrement st now =
      Store.set st (getAccountModelIdentifier account model)
        { id := u.id
          requestsThisMinute := u.requestsThisMinute + 1
          tokensThisMinute := u.tokensThisMinute + tokensUsed
          requestsToday := u.requestsToday + 1
          lastResetTime := u.lastResetTime } := by
  cases hasIncrement with
  | false =>
    rw [recordRequest]
    simp only [Bool.false_eq_true, if_false]
    rw [getCurrentUsage_current st _ now u h hm hd]
  | true =>
    rw [recordRequest]
    simp only [if_true]
    simp [memIncrement, h, hm, hd]

/-- C6: one `recordRequest` call with `tokensUsed = T`, against a prior
usage state in the current minute and day buckets, makes the
subsequently read usage show `requestsThisMinute + 1`,
`tokensThisMinute + T` and `requestsToday + 1`; `hasInc` is universally
quantified, so this covers the atomic-increment path and the
read-then-write fallback path alike. -/
theorem recordRequest_increments (account : Account) (model : String)
    (T : Nat) (hasInc : Bool) (st : Store) (now : Nat) (u : UsageData)
    (h : Store.get st (getAccountModelIdentifier account model) = some u)
    (hm : u.lastResetTime.minute = bucketMinute now)
    (hd : u.lastResetTime.day = bucketDay now) :
    (getUsage account model (recordRequest account model T hasInc st now) now).1 =
      some { id := u.id
             requestsThisMinute := u.requestsThisMinute + 1
             tokensThisMinute := u.tokensThisMinute + T
             requestsToday := u.requestsToday + 1
             lastResetTime := u.lastResetTime } := by
  rw [recordRequest_stored account model T hasInc st now u h hm hd]
  have hget := store_get_set_self st (getAccountModelIdentifier account model)
    { id := u.id
      requestsThisMinute := u.requestsThisMinute + 1
      tokensThisMinute := u.tokensThisMinute + T
      requestsToday := u.requestsToday + 1
      lastResetTime := u.lastResetTime }
  rw [getUsage, getCurrentUsage_current _ _ now _ hget hm hd]

/-- Witness for C7: a record one minute stale (bucket 0 at
`now = 60000`) has its minute counters zeroed on read while
`requestsToday = 9` survives, and the reset is persisted. -/
theorem windowReset_spec_witness :
    getCurrentUsage storeStaleMinute "k" 60000 =
      ({ id := none, requestsThisMinute := 0, tokensThisMinute := 0,
         requestsToday := 9, lastResetTime := { minute := 1, day := 0 } },
       [("k", { id := none, requestsThisMinute := 0, tokensThisMinute := 0,
                requestsToday := 9, lastResetTime := { minute := 1, day := 0 } })]) := by
  have h := (windowReset_spec storeStaleMinute "k" 60000
    { id := none, requestsThisMinute := 5, tokensThisMinute := 123,
      requestsToday := 9, lastResetTime := { minute := 0, day := 0 } }
    (by decide)).1 (by decide) rfl
  exact h

/-- Witness for C6: recording 50 tokens against `storeLimitedUsed`
(4 requests, 40 tokens, 9 today) yields 5 requests, 90 tokens,
10 today, on both storage paths. -/
theorem recordRequest_increments_witness :
    ((getUsage acctLimited "gpt-3.5-turbo"
        (recordRequest acctLimited "gpt-3.5-turbo" 50 true storeLimitedUsed 0) 0).1 =
      some { id := none, requestsThisMinute := 5, tokensThisMinute := 90,
             requestsToday := 10, lastResetTime := { minute := 0, day := 0 } })
    ∧ ((getUsage acctLimited "gpt-3.5-turbo"
        (recordRequest acctLimited "gpt-3.5-turbo" 50 false storeLimitedUsed 0) 0).1 =
      some { id := none, requestsThisMinute := 5, tokensThisMinute := 90,
             requestsToday := 10, lastResetTime := { minute := 0, day := 0 } }) :=
  ⟨recordRequest_increments acctLimited "gpt-3.5-turbo" 50 true storeLimitedUsed 0
    { id := none, requestsThisMinute := 4, tokensThisMinute := 40,
      requestsToday := 9, lastResetTime := { minute := 0, day := 0 } }
    (by simp [storeLimitedUsed, Store.get, List.find?]) rfl rfl,
   recordRequest_increments acctLimited "gpt-3.5-turbo" 50 false storeLimitedUsed 0
    { id := none, requestsThisMinute := 4, tokensThisMinute := 40,
      requestsToday := 9, lastResetTime := { minute := 0, day := 0 } }
    (by simp [storeLimitedUsed, Store.get, List.find?]) rfl rfl⟩

/-! ## Availability score -/

/-- A division with a positive (hence nonzero) natural denominator is
finite and exact. -/
theorem jsDiv_of_pos (a : ℚ) (c : Nat) (hc : 0 < c) :
    jsDiv a c = JSNum.num (a / c) := by
  have : (c : ℚ) ≠ 0 := Nat.cast_ne_zero.mpr hc.ne'
  simp [jsDiv, this]

/-- Multiplying two finite JS numbers is exact rational
multiplication. -/
theorem JSNum.mul_num (a b : ℚ) :
    JSNum.mul (JSNum.num a) (JSNum.num b) = JSNum.num (a * b) := rfl

/-- One configured factor is nonnegative when its ceiling is
positive. -/
theorem dimAvailability_nonneg (c u : Nat) (hc : 0 < c) :
    0 ≤ dimAvailability c u := by
  have hcq : (0:ℚ) < c := by exact_mod_cast hc
  exact div_nonneg (le_max_left 0 _) hcq.le

/-- One configured factor is at most one when its ceiling is
positive. -/
theorem dimAvailability_le_one (c u : Nat) (hc : 0 < c) :
    dimAvailability c u ≤ 1 := by
  have hcq : (0:ℚ) < c := by exact_mod_cast hc
  rw [dimAvailability, div_le_one hcq]
  refine max_le hcq.le ?_
  have : (0:ℚ) ≤ u := Nat.cast_nonneg u
  linarith

/-- One configured factor is positive while usage is strictly below
the ceiling. -/
theorem dimAvailability_pos (c u : Nat) (hu : u < c) :
    0 < dimAvailability c u := by
  have hcq : (0:ℚ) < c := by
    have : 0 < c := Nat.lt_of_le_of_lt (Nat.zero_le u) hu
    exact_mod_cast this
  have huq : (u:ℚ) < c := by exact_mod_cast hu
  rw [dimAvailability]
  apply div_pos _ hcq
  rw [lt_max_iff]
  right; linarith

/-- One configured factor weakly decreases as usage grows. -/
theorem dimAvailability_anti (c u v : Nat) (hc : 0 < c) (huv : u ≤ v) :
    dimAvailability c v ≤ dimAvailability c u := by
  have hcq : (0:ℚ) < c := by exact_mod_cast hc
  have huvq : (u:ℚ) ≤ v := by exact_mod_cast huv
  rw [dimAvailability, dimAvailability, div_le_div_iff_of_pos_right hcq]
  exact max_le_max le_rfl (by linarith)

/-- One configured factor strictly decreases as usage grows, as long
as usage started strictly below the ceiling. -/
theorem dimAvailability_strict (c u v : Nat) (hu : u < c) (huv : u < v) :
    dimAvailability c v < dimAvailability c u := by
  have hc : 0 < c := Nat.lt_of_le_of_lt (Nat.zero_le u) hu
  have hcq : (0:ℚ) < c := by exact_mod_cast hc
  have huq : (u:ℚ) < c := by exact_mod_cast hu
  have huvq : (u:ℚ) < v := by exact_mod_cast huv
  have hnum : max 0 ((c:ℚ) - v) < max 0 ((c:ℚ) - u) := by
    rcases max_cases 0 ((c:ℚ) - v) with ⟨h1, h2⟩ | ⟨h1, h2⟩ <;>
      rcases max_cases 0 ((c:ℚ) - u) with ⟨h3, h4⟩ | ⟨h3, h4⟩ <;>
        rw [h1, h3] <;> linarith
  show max 0 ((c:ℚ) - v) / c < max 0 ((c:ℚ) - u) / c
  exact (div_lt_div_iff_of_pos_right hcq).mpr hnum

/-- An optional factor is nonnegative (an unset dimension contributes
the unit). -/
theorem optFactor_nonneg (oc : Option Nat) (u : Nat)
    (h : ∀ c, oc = some c → 0 < c) : 0 ≤ optFactor oc u := by
  cases oc with
  | none => norm_num [optFactor]
  | some c => exact dimAvailability_nonneg c u (h c rfl)

/-- An optional factor is at most one. -/
theorem optFactor_le_one (oc : Option Nat) (u : Nat)
    (h : ∀ c, oc = some c → 0 < c) : optFactor oc u ≤ 1 := by
  cases oc with
  | none => norm_num [optFactor]
  | some c => exact dimAvailability_le_one c u (h c rfl)

/-- An optional factor is positive while usage is below the ceiling
(or the dimension is unset). -/
theorem optFactor_pos (oc : Option Nat) (u : Nat)
    (h : ∀ c, oc = some c → u < c) : 0 < optFactor oc u := by
  cases oc with
  | none => norm_num [optFactor]
  | some c => exact dimAvailability_pos c u (h c rfl)

/-- An optional factor weakly decreases as usage grows. -/
theorem optFactor_anti (oc : Option Nat) (u v : Nat)
    (h : ∀ c, oc = some c → 0 < c) (huv : u ≤ v) :
    optFactor oc v ≤ optFactor oc u := by
  cases oc with
  | none => norm_num [optFactor]
  | some c => exact dimAvailability_anti c u v (h c rfl) huv

/-- With every configured ceiling positive, the code's score is the
finite rational the spec describes: the product of
`max(0, ceiling - used) / ceiling` over the configured dimensions,
evaluated on the post-reset usage. -/
theorem getAvailabilityScore_eq_spec (account : Account) (limits : RateLimit)
    (model : String) (st : Store) (now : Nat)
    (h : account.rateLimit = some limits)
    (hrpm : ∀ c, limits.rpm = some c → 0 < c)
    (htpm : ∀ c, limits.tpm = some c → 0 < c)
    (hrpd : ∀ c, limits.rpd = some c → 0 < c) :
    (getAvailabilityScore account model st now).1 =
      JSNum.num (specAvailabilityScore limits
        (getCurrentUsage st (getAccountModelIdentifier account model) now).1) := by
  rcases limits with ⟨rpm, tpm, rpd⟩
  cases rpm <;> cases tpm <;> cases rpd <;>
    simp_all [getAvailabilityScore, specAvailabilityScore, optFactor,
      dimAvailability, jsDiv_of_pos, JSNum.mul_num]

/-- The spec product lies in `[0, 1]` when every configured ceiling is
positive. -/
theorem specAvailabilityScore_mem_unit (limits : RateLimit) (u : UsageData)
    (hrpm : ∀ c, limits.rpm = some c → 0 < c)
    (htpm : ∀ c, limits.tpm = some c → 0 < c)
    (hrpd : ∀ c, limits.rpd = some c → 0 < c) :
    0 ≤ specAvailabilityScore limits u ∧ specAvailabilityScore limits u ≤ 1 := by
  have a0 := optFactor_nonneg limits.rpm u.requestsThisMinute hrpm
  have b0 := optFactor_nonneg limits.tpm u.tokensThisMinute htpm
  have c0 := optFactor_nonneg limits.rpd u.requestsToday hrpd
  have a1 := optFactor_le_one limits.rpm u.requestsThisMinute hrpm
  have b1 := optFactor_le_one limits.tpm u.tokensThisMinute htpm
  have c1 := optFactor_le_one limits.rpd u.requestsToday hrpd
  rw [specAvailabilityScore]
  constructor
  · exact mul_nonneg (mul_nonneg a0 b0) c0
  · exact mul_le_one₀ (mul_le_one₀ a1 b0 b1) c0 c1

/-- The spec product strictly decreases under a pointwise usage
increase that is strict in some configured dimension, provided the
smaller usage is strictly below every configured ceiling. -/
theorem specAvailabilityScore_strict (limits : RateLimit) (u1 u2 : UsageData)
    (hrpm : ∀ c, limits.rpm = some c → 0 < c ∧ u1.requestsThisMinute < c)
    (htpm : ∀ c, limits.tpm = some c → 0 < c ∧ u1.tokensThisMinute < c)
    (hrpd : ∀ c, limits.rpd = some c → 0 < c ∧ u1.requestsToday < c)
    (hle1 : u1.requestsThisMinute ≤ u2.requestsThisMinute)
    (hle2 : u1.tokensThisMinute ≤ u2.tokensThisMinute)
    (hle3 : u1.requestsToday ≤ u2.requestsToday)
    (hstrict :
      (limits.rpm.isSome = true ∧ u1.requestsThisMinute < u2.requestsThisMinute)
      ∨ (limits.tpm.isSome = true ∧ u1.tokensThisMinute < u2.tokensThisMinute)
      ∨ (limits.rpd.isSome = true ∧ u1.requestsToday < u2.requestsToday)) :
    specAvailabilityScore limits u2 < specAvailabilityScore limits u1 := by
  have pa1 := optFactor_pos limits.rpm u1.requestsThisMinute (fun c hc => (hrpm c hc).2)
  have pb1 := optFactor_pos limits.tpm u1.tokensThisMinute (fun c hc => (htpm c hc).2)
  have pc1 := optFactor_pos limits.rpd u1.requestsToday (fun c hc => (hrpd c hc).2)
  have na2 := optFactor_nonneg limits.rpm u2.requestsThisMinute (fun c hc => (hrpm c hc).1)
  have nb2 := optFactor_nonneg limits.tpm u2.tokensThisMinute (fun c hc => (htpm c hc).1)
  have nc2 := optFactor_nonneg limits.rpd u2.requestsToday (fun c hc => (hrpd c hc).1)
  have la := optFactor_anti limits.rpm u1.requestsThisMinute u2.requestsThisMinute
    (fun c hc => (hrpm c hc).1) hle1
  have lb := optFactor_anti limits.tpm u1.tokensThisMinute u2.tokensThisMinute
    (fun c hc => (htpm c hc).1) hle2
  have lc := optFactor_anti limits.rpd u1.requestsToday u2.requestsToday
    (fun c hc => (hrpd c hc).1) hle3
  rw [specAvailabilityScore, specAvailabilityScore]
  rcases hstrict with ⟨hsome, hlt⟩ | ⟨hsome, hlt⟩ | ⟨hsome, hlt⟩
  · rcases Option.isSome_iff_exists.mp hsome with ⟨c, hc⟩
    have sa : optFactor limits.rpm u2.requestsThisMinute
        < optFactor limits.rpm u1.requestsThisMinute := by
      rw [hc]
      exact dimAvailability_strict c _ _ (hrpm c hc).2 hlt
    calc optFactor limits.rpm u2.requestsThisMinute
          * optFactor limits.tpm u2.tokensThisMinute
          * optFactor limits.rpd u2.requestsToday
        ≤ optFactor limits.rpm u2.requestsThisMinute
          * (optFactor limits.tpm u1.tokensThisMinute
            * optFactor limits.rpd u1.requestsToday) := by
          rw [mul_assoc]
          exact mul_le_mul_of_nonneg_left (mul_le_mul lb lc nc2 pb1.le) na2
      _ < optFactor limits.rpm u1.requestsThisMinute
          * (optFactor limits.tpm u1.tokensThisMinute
            * optFactor limits.rpd u1.requestsToday) :=
          mul_lt_mul_of_pos_right sa (mul_pos pb1 pc1)
      _ = optFactor limits.rpm u1.requestsThisMinute
          * optFactor limits.tpm u1.tokensThisMinute
          * optFactor limits.rpd u1.requestsToday := by ring
  · rcases Option.isSome_iff_exists.mp hsome with ⟨c, hc⟩
    have sb : optFactor limits.tpm u2.tokensThisMinute
        < optFactor limits.tpm u1.tokensThisMinute := by
      rw [hc]
      exact dimAvailability_strict c _ _ (htpm c hc).2 hlt
    calc optFactor limits.rpm u2.requestsThisMinute
          * optFactor limits.tpm u2.tokensThisMinute
          * optFactor limits.rpd u2.requestsToday
        ≤ optFactor limits.rpm u1.requestsThisMinute
          * (optFactor limits.tpm u2.tokensThisMinute
            * optFactor limits.rpd u2.requestsToday) := by
          rw [mul_assoc]
          exact mul_le_mul_of_nonneg_right la (mul_nonneg nb2 nc2)
            |>.trans (le_of_eq rfl)
      _ < optFactor limits.rpm u1.requestsThisMinute
          * (optFactor limits.tpm u1.tokensThisMinute
            * optFactor limits.rpd u1.requestsToday) := by
          apply mul_lt_mul_of_pos_left _ pa1
          calc optFactor limits.tpm u2.tokensThisMinute
              * optFactor limits.rpd u2.requestsToday
              ≤ optFactor limits.tpm u2.tokensThisMinute
                * optFactor limits.rpd u1.requestsToday :=
                mul_le_mul_of_nonneg_left lc nb2
            _ < optFactor limits.tpm u1.tokensThisMinute
                * optFactor limits.rpd u1.requestsToday :=
                mul_lt_mul_of_pos_right sb pc1
      _ = optFactor limits.rpm u1.requestsThisMinute
          * optFactor limits.tpm u1.tokensThisMinute
          * optFactor limits.rpd u1.requestsToday := by ring
  · rcases Option.isSome_iff_exists.mp hsome with ⟨c, hc⟩
    have sc : optFactor limits.rpd u2.requestsToday
        < optFactor limits.rpd u1.requestsToday := by
      rw [hc]
      exact dimAvailability_strict c _ _ (hrpd c hc).2 hlt
    calc optFactor limits.rpm u2.requestsThisMinute
          * optFactor limits.tpm u2.tokensThisMinute
          * optFactor limits.rpd u2.requestsToday
        ≤ optFactor limits.rpm u1.requestsThisMinute
          * optFactor limits.tpm u1.tokensThisMinute
          * optFactor limits.rpd u2.requestsToday :=
          mul_le_mul_of_nonneg_right (mul_le_mul la lb nb2 pa1.le) nc2
      _ < optFactor limits.rpm u1.requestsThisMinute
          * optFactor limits.tpm u1.tokensThisMinute
          * optFactor limits.rpd u1.requestsToday :=
          mul_lt_mul_of_pos_left sc (mul_pos pa1 pb1)

/-- Counterexample to C5 as stated: with a configured ceiling of `0`
(`acctZeroRpm`), `getAvailabilityScore` computes `0 / 0`, which in JS
is `NaN` — not a real number in `[0, 1]`. -/
theorem availabilityScore_zero_ceiling_nan :
    (getAvailabilityScore acctZeroRpm "m" [] 0).1 = JSNum.nan
    ∧ ∀ q : ℚ, JSNum.num q ≠ JSNum.nan := by
  constructor
  · norm_num [getAvailabilityScore, acctZeroRpm, getCurrentUsage, Store.get,
      List.find?, jsDiv, JSNum.mul]
  · intro q h
    exact JSNum.noConfusion h

/-- C5 (amended): `getAvailabilityScore` returns `1.0` with no
`rateLimit`; with a `rateLimit` all of whose configured ceilings are
positive, it returns exactly the spec product over the configured
dimensions, a rational in the closed interval `[0, 1]`.  (A zero
ceiling instead yields `NaN`, see the counterexample.) -/
theorem availabilityScore_range (account : Account) (model : String)
    (st : Store) (now : Nat) :
    (account.rateLimit = none →
      (getAvailabilityScore account model st now).1 = JSNum.num 1)
    ∧ ∀ limits, account.rateLimit = some limits →
        (∀ c, limits.rpm = some c → 0 < c) →
        (∀ c, limits.tpm = some c → 0 < c) →
        (∀ c, limits.rpd = some c → 0 < c) →
        (getAvailabilityScore account model st now).1 =
          JSNum.num (specAvailabilityScore limits
            (getCurrentUsage st (getAccountModelIdentifier account model) now).1)
        ∧ 0 ≤ specAvailabilityScore limits
            (getCurrentUsage st (getAccountModelIdentifier account model) now).1
        ∧ specAvailabilityScore limits
            (getCurrentUsage st (getAccountModelIdentifier account model) now).1 ≤ 1 := by
  constructor
  · intro h
    simp [getAvailabilityScore, h]
  · intro limits h hrpm htpm hrpd
    refine ⟨getAvailabilityScore_eq_spec account limits model st now h hrpm htpm hrpd, ?_, ?_⟩
    · exact (specAvailabilityScore_mem_unit limits _ hrpm htpm hrpd).1
    · exact (specAvailabilityScore_mem_unit limits _ hrpm htpm hrpd).2

/-- Witness for C5 (amended): the fresh score of `acctLimited` equals
the spec product and lies in `[0, 1]`. -/
theorem availabilityScore_range_witness :
    (getAvailabilityScore acctLimited "gpt-3.5-turbo" [] 0).1 =
      JSNum.num (specAvailabilityScore
        { rpm := some 10, tpm := some 1000, rpd := some 100 }
        (getCurrentUsage [] (getAccountModelIdentifier acctLimited "gpt-3.5-turbo") 0).1)
    ∧ 0 ≤ specAvailabilityScore
        { rpm := some 10, tpm := some 1000, rpd := some 100 }
        (getCurrentUsage [] (getAccountModelIdentifier acctLimited "gpt-3.5-turbo") 0).1
    ∧ specAvailabilityScore
        { rpm := some 10, tpm := some 1000, rpd := some 100 }
        (getCurrentUsage [] (getAccountModelIdentifier acctLimited "gpt-3.5-turbo") 0).1 ≤ 1 :=
  (availabilityScore_range acctLimited "gpt-3.5-turbo" [] 0).2
    { rpm := some 10, tpm := some 1000, rpd := some 100 } rfl
    (by intro c hc; cases hc; decide)
    (by intro c hc; cases hc; decide)
    (by intro c hc; cases hc; decide)

set_option maxRecDepth 10000 in
/-- Counterexample to C9 as stated: `acctRpmOne` (rpm 1, its only
configured dimension) at 1 and at 2 recorded requests in the same
window scores `0` both times — usage strictly increased in a
configured dimension, yet the score did not strictly decrease. -/
theorem availabilityScore_not_strict_at_ceiling :
    (getAvailabilityScore acctRpmOne "m" storeRpmOneUsed1 0).1 = JSNum.num 0
    ∧ (getAvailabilityScore acctRpmOne "m" storeRpmOneUsed2 0).1 = JSNum.num 0 := by
  constructor <;>
    norm_num [getAvailabilityScore, acctRpmOne, getCurrentUsage, Store.get,
      storeRpmOneUsed1, storeRpmOneUsed2, List.find?, jsDiv, JSNum.mul,
      bucketMinute, bucketDay]

/-- C9 (amended): the score is exactly `1.0` for an account with no
`rateLimit` regardless of recorded usage; for a fixed `rateLimit` with
positive configured ceilings, the score strictly decreases under a
same-window usage increase that is strict in some configured
dimension, provided the smaller usage is strictly below every
configured ceiling (at a ceiling the score is already `0` and stays
`0`, see the counterexample). -/
theorem availabilityScore_strict_mono :
    (∀ (account : Account) (model : String) (st : Store) (now : Nat),
      account.rateLimit = none →
      (getAvailabilityScore account model st now).1 = JSNum.num 1)
    ∧ ∀ (account : Account) (limits : RateLimit) (model : String)
        (st1 st2 : Store) (now : Nat) (u1 u2 : UsageData),
        account.rateLimit = some limits →
        Store.get st1 (getAccountModelIdentifier account model) = some u1 →
        Store.get st2 (getAccountModelIdentifier account model) = some u2 →
        u1.lastResetTime.minute = bucketMinute now →
        u1.lastResetTime.day = bucketDay now →
        u2.lastResetTime.minute = bucketMinute now →
        u2.lastResetTime.day = bucketDay now →
        (∀ c, limits.rpm = some c → 0 < c ∧ u1.requestsThisMinute < c) →
        (∀ c, limits.tpm = some c → 0 < c ∧ u1.tokensThisMinute < c) →
        (∀ c, limits.rpd = some c → 0 < c ∧ u1.requestsToday < c) →
        u1.requestsThisMinute ≤ u2.requestsThisMinute →
        u1.tokensThisMinute ≤ u2.tokensThisMinute →
        u1.requestsToday ≤ u2.requestsToday →
        ((limits.rpm.isSome = true ∧ u1.requestsThisMinute < u2.requestsThisMinute)
          ∨ (limits.tpm.isSome = true ∧ u1.tokensThisMinute < u2.tokensThisMinute)
          ∨ (limits.rpd.isSome = true ∧ u1.requestsToday < u2.requestsToday)) →
        ∃ q1 q2 : ℚ,
          (getAvailabilityScore account model st1 now).1 = JSNum.num q1
          ∧ (getAvailabilityScore account model st2 now).1 = JSNum.num q2
          ∧ q2 < q1 := by
  constructor
  · intro account model st now h
    simp [getAvailabilityScore, h]
  · intro account limits model st1 st2 now u1 u2 h hg1 hg2 hm1 hd1 hm2 hd2
      hrpm htpm hrpd hle1 hle2 hle3 hstrict
    refine ⟨specAvailabilityScore limits u1, specAvailabilityScore limits u2, ?_, ?_, ?_⟩
    · rw [getAvailabilityScore_eq_spec account limits model st1 now h
        (fun c hc => (hrpm c hc).1) (fun c hc => (htpm c hc).1) (fun c hc => (hrpd c hc).1),
        getCurrentUsage_current st1 _ now u1 hg1 hm1 hd1]
    · rw [getAvailabilityScore_eq_spec account limits model st2 now h
        (fun c hc => (hrpm c hc).1) (fun c hc => (htpm c hc).1) (fun c hc => (hrpd c hc).1),
        getCurrentUsage_current st2 _ now u2 hg2 hm2 hd2]
    · exact specAvailabilityScore_strict limits u1 u2 hrpm htpm hrpd hle1 hle2 hle3 hstrict

/-- Witness for C9 (amended): `acctA` (rpm 2) scores strictly less
after its first recorded request. -/
theorem availabilityScore_strict_mono_witness :
    ∃ q1 q2 : ℚ,
      (getAvailabilityScore acctA "m"
        [(getAccountModelIdentifier acctA "m",
          { id := none, requestsThisMinute := 0, tokensThisMinute := 0,
            requestsToday := 0, lastResetTime := { minute := 0, day := 0 } })] 0).1
        = JSNum.num q1
      ∧ (getAvailabilityScore acctA "m"
        [(getAccountModelIdentifier acctA "m",
          { id := none, requestsThisMinute := 1, tokensThisMinute := 0,
            requestsToday := 0, lastResetTime := { minute := 0, day := 0 } })] 0).1
        = JSNum.num q2
      ∧ q2 < q1 :=
  (availabilityScore_strict_mono).2 acctA
    { rpm := some 2, tpm := none, rpd := none } "m" _ _ 0
    { id := none, requestsThisMinute := 0, tokensThisMinute := 0,
      requestsToday := 0, lastResetTime := { minute := 0, day := 0 } }
    { id := none, requestsThisMinute := 1, tokensThisMinute := 0,
      requestsToday := 0, lastResetTime := { minute := 0, day := 0 } }
    rfl
    (by simp [Store.get, List.find?])
    (by simp [Store.get, List.find?])
    rfl rfl rfl rfl
    (by intro c hc; cases hc; exact ⟨by decide, by decide⟩)
    (by intro c hc; cases hc)
    (by intro c hc; cases hc)
    (by decide) (by decide) (by decide)
    (Or.inl ⟨rfl, by decide⟩)

/-! ## Provider selection -/

/-- The head of the stable descending sort of a list of finite scores
is an element with the maximal score, and every element strictly
before its (original) position scores strictly less — i.e. it is the
first maximal element in original order. -/
theorem sortByScoreDesc_head (l : List (ProviderModel × JSNum))
    (hl : l ≠ []) (hq : ∀ p ∈ l, ∃ q : ℚ, p.2 = JSNum.num q) :
    ∃ (i : Nat) (c : ProviderModel) (q : ℚ),
      (sortByScoreDesc l).head? = some (c, JSNum.num q)
      ∧ l.get? i = some (c, JSNum.num q)
      ∧ (∀ p ∈ l, ∀ qp : ℚ, p.2 = JSNum.num qp → qp ≤ q)
      ∧ (∀ p ∈ l.take i, ∀ qp : ℚ, p.2 = JSNum.num qp → qp < q) := by
  induction l with
  | nil => exact absurd rfl hl
  | cons x xs ih =>
    obtain ⟨qx, hqx⟩ := hq x (List.mem_cons_self x xs)
    cases xs with
    | nil =>
      refine ⟨0, x.1, qx, ?_, ?_, ?_, ?_⟩
      · simp [sortByScoreDesc, insertByScoreDesc, ← hqx]
      · simp [← hqx]
      · intro p hp qp hqp
        rw [List.mem_singleton] at hp
        subst hp
        rw [hqx] at hqp
        rw [JSNum.num.inj hqp]
      · intro p hp
        simp at hp
    | cons y ys =>
      obtain ⟨i, m, qm, hhead, hget, hmax, htake⟩ :=
        ih (by simp) (fun p hp => hq p (List.mem_cons_of_mem x hp))
      obtain ⟨rest, hrest⟩ :
          ∃ rest, sortByScoreDesc (y :: ys) = (m, JSNum.num qm) :: rest := by
        cases hsort : sortByScoreDesc (y :: ys) with
        | nil => rw [hsort] at hhead; simp at hhead
        | cons a as =>
          rw [hsort] at hhead
          simp only [List.head?_cons, Option.some.injEq] at hhead
          exact ⟨as, by rw [hhead]⟩
      by_cases hgt : jsScoreGt (JSNum.num qm) x.2 = true
      · have hqmgt : qx < qm := by
          rw [hqx] at hgt
          simpa [jsScoreGt] using hgt
        refine ⟨i + 1, m, qm, ?_, ?_, ?_, ?_⟩
        · rw [sortByScoreDesc, hrest, insertByScoreDesc]
          simp [hgt]
        · simpa using hget
        · intro p hp qp hqp
          rcases List.mem_cons.mp hp with h | h
          · subst h
            rw [hqx] at hqp
            rw [← JSNum.num.inj hqp]
            exact hqmgt.le
          · exact hmax p h qp hqp
        · intro p hp qp hqp
          rw [List.take_succ_cons] at hp
          rcases List.mem_cons.mp hp with h | h
          · subst h
            rw [hqx] at hqp
            rw [← JSNum.num.inj hqp]
            exact hqmgt
          · exact htake p h qp hqp
      · have hle : qm ≤ qx := by
          rw [hqx] at hgt
          simp only [jsScoreGt, decide_eq_true_eq] at hgt
          exact le_of_not_lt hgt
        refine ⟨0, x.1, qx, ?_, ?_, ?_, ?_⟩
        · rw [sortByScoreDesc, hrest, insertByScoreDesc]
          simp only [hgt, Bool.false_eq_true, if_false, List.head?_cons]
          rw [← hqx]
        · simp [← hqx]
        · intro p hp qp hqp
          rcases List.mem_cons.mp hp with h | h
          · subst h
            rw [hqx] at hqp
            rw [JSNum.num.inj hqp]
          · exact (hmax p h qp hqp).trans hle
        · intro p hp
          simp at hp

/-- Scoring a non-empty candidate list yields a non-empty scored
list. -/
theorem scoreCandidates_ne_nil (l : List ProviderModel) (st : Store)
    (now : Nat) (h : l ≠ []) : (scoreCandidates l st now).1 ≠ [] := by
  cases l with
  | nil => exact absurd rfl h
  | cons x xs => simp [scoreCandidates]

/-- Under the rate-limit-aware strategy with a wired-up manager and a
non-empty admissible list, `selectProvider` returns the head of the
stably sorted scored list. -/
theorem selectProvider_rla_eq (config : AIRouterConfig)
    (request : Option ChatRequest) (rand : ℚ) (st : Store) (now : Nat)
    (hstrat : config.strategy = some "rate-limit-aware")
    (hne : (rlaAdmissible config request st now).1 ≠ []) :
    (selectProvider config true request rand st now).1 =
      Except.ok ((sortByScoreDesc (rlaScored config request st now)).head?.map
        (fun p => p.1)) := by
  have hprovne : config.providers ≠ [] := by
    intro hnil
    apply hne
    rw [rlaAdmissible, flattenCandidates, hnil]
    rfl
  have hprov : config.providers.isEmpty = false := by
    cases hp : config.providers with
    | nil => exact absurd hp hprovne
    | cons a as => rfl
  have hane : ¬ ((rlaAdmissible config request st now).1.isEmpty = true) := by
    intro h
    exact hne (List.isEmpty_iff.mp h)
  rw [selectProvider]
  rw [if_neg (by simp [hprov])]
  rw [if_neg (by simp [hstrat])]
  rw [if_pos hstrat]
  simp only [Bool.not_true, Bool.false_eq_true, if_false]
  rw [selectRateLimitAwareProvider]
  rcases hfa : filterAdmissible (flattenCandidates config) (rlaEstimate request) st now
    with ⟨avail, st1⟩
  have hra : rlaAdmissible config request st now = (avail, st1) := hfa
  have havne : avail ≠ [] := by
    intro h
    exact hne (by rw [hra, h])
  have havempty : avail.isEmpty = false := by
    cases hv : avail with
    | nil => exact absurd hv havne
    | cons a as => rfl
  dsimp only
  simp only [havempty, Bool.false_eq_true, if_false]
  rcases hsc : scoreCandidates avail st1 now with ⟨scored, st2⟩
  have hscored : rlaScored config request st now = scored := by
    rw [rlaScored, hra]
    dsimp only
    rw [hsc]
  dsimp only
  rw [hscored]

/-- C3: with the rate-limit-aware strategy and a non-empty admissible
candidate list whose scores are all finite, `selectProvider` returns
the admissible candidate whose availability score is maximal, and
among equal maximal scores the one earliest in the deterministic
flattening order (index `i` in the scored list; every earlier entry
scores strictly less).  The finiteness hypothesis reflects that the
JS sort comparator's behaviour is only specified for real-valued
scores (a zero `tpm` ceiling can produce a `NaN` score, cf. C5). -/
theorem selectProvider_rla_first_max (config : AIRouterConfig)
    (request : Option ChatRequest) (rand : ℚ) (st : Store) (now : Nat)
    (hstrat : config.strategy = some "rate-limit-aware")
    (hne : (rlaAdmissible config request st now).1 ≠ [])
    (hq : ∀ p ∈ rlaScored config request st now, ∃ q : ℚ, p.2 = JSNum.num q) :
    ∃ (i : Nat) (c : ProviderModel) (q : ℚ),
      (selectProvider config true request rand st now).1 = Except.ok (some c)
      ∧ (rlaScored config request st now).get? i = some (c, JSNum.num q)
      ∧ (∀ p ∈ rlaScored config request st now,
          ∀ qp : ℚ, p.2 = JSNum.num qp → qp ≤ q)
      ∧ (∀ p ∈ (rlaScored config request st now).take i,
          ∀ qp : ℚ, p.2 = JSNum.num qp → qp < q) := by
  have hsne : rlaScored config request st now ≠ [] := by
    rcases hfa : rlaAdmissible config request st now with ⟨avail, st1⟩
    have havne : avail ≠ [] := by
      intro h
      exact hne (by rw [hfa, h])
    rw [rlaScored, hfa]
    dsimp only
    exact scoreCandidates_ne_nil avail st1 now havne
  obtain ⟨i, c, q, hhead, hget, hmax, htake⟩ :=
    sortByScoreDesc_head (rlaScored config request st now) hsne hq
  refine ⟨i, c, q, ?_, hget, hmax, htake⟩
  rw [selectProvider_rla_eq config request rand st now hstrat hne, hhead]
  rfl

/-- Witness for C3: two fresh rpm-2 accounts tie at score 1; the first
one in flattening order (`acctA`) is selected at index 0. -/
theorem selectProvider_rla_first_max_witness :
    ∃ (i : Nat) (c : ProviderModel) (q : ℚ),
      (selectProvider cfgTwoAccounts true none 0 [] 0).1 = Except.ok (some c)
      ∧ (rlaScored cfgTwoAccounts none [] 0).get? i = some (c, JSNum.num q)
      ∧ (∀ p ∈ rlaScored cfgTwoAccounts none [] 0,
          ∀ qp : ℚ, p.2 = JSNum.num qp → qp ≤ q)
      ∧ (∀ p ∈ (rlaScored cfgTwoAccounts none [] 0).take i,
          ∀ qp : ℚ, p.2 = JSNum.num qp → qp < q) :=
  selectProvider_rla_first_max cfgTwoAccounts none 0 [] 0 rfl
    (by
      have hs : ("https://api.test.com/v1" : String) = "" ↔ False := by
        constructor
        · intro h; exact absurd h (by decide)
        · intro h; exact absurd h not_false
      have heval : (rlaAdmissible cfgTwoAccounts none [] 0).1 =
          [{ model := "m", endpoint := "https://api.test.com/v1", apiKey := "key-a",
             account := some acctA },
           { model := "m", endpoint := "https://api.test.com/v1", apiKey := "key-b",
             account := some acctB }] := by
        norm_num [rlaAdmissible, rlaEstimate, filterAdmissible, flattenCandidates,
          cfgTwoAccounts, acctA, acctB, jsOrString, canHandleRequest,
          getCurrentUsage, Store.get, List.find?, bucketMinute, bucketDay, hs]
      rw [heval]
      simp
    )
    (by
      have hs : ("https://api.test.com/v1" : String) = "" ↔ False := by
        constructor
        · intro h; exact absurd h (by decide)
        · intro h; exact absurd h not_false
      have heval : rlaScored cfgTwoAccounts none [] 0 =
          [({ model := "m", endpoint := "https://api.test.com/v1", apiKey := "key-a",
              account := some acctA }, JSNum.num 1),
           ({ model := "m", endpoint := "https://api.test.com/v1", apiKey := "key-b",
              account := some acctB }, JSNum.num 1)] := by
        norm_num [rlaScored, rlaAdmissible, rlaEstimate, filterAdmissible,
          flattenCandidates, cfgTwoAccounts, acctA, acctB, jsOrString,
          canHandleRequest, scoreCandidates, getAvailabilityScore,
          getCurrentUsage, Store.get, List.find?, bucketMinute, bucketDay,
          jsDiv, JSNum.mul, hs]
      rw [heval]
      intro p hp
      rcases List.mem_cons.mp hp with h | h
      · exact ⟨1, by rw [h]⟩
      · rw [List.mem_singleton] at h
        exact ⟨1, by rw [h]⟩
    )

/-- `selectRateLimitAwareProvider` never produces the
`NoProvidersConfigured` error. -/
theorem selectRLA_ne_noProviders (pms : List ProviderModel)
    (req : Option ChatRequest) (st : Store) (now : Nat) :
    (selectRateLimitAwareProvider pms req st now).1 ≠
      Except.error "No providers configured" := by
  rw [selectRateLimitAwareProvider]
  rcases hfa : filterAdmissible pms (rlaEstimate req) st now with ⟨avail, st1⟩
  dsimp only
  by_cases hv : avail.isEmpty = true
  · rw [if_pos hv]
    intro h
    exact absurd (Except.error.inj h) (by decide)
  · rw [if_neg hv]
    rcases hsc : scoreCandidates avail st1 now with ⟨scored, st2⟩
    dsimp only
    intro h
    exact Except.noConfusion h

/-- C4 (amended): `selectProvider` fails with "No providers configured"
exactly when `config.providers` is the empty list; when the providers
list is non-empty but the flattened candidate list is empty, the
rate-limit-aware strategy instead fails with "All accounts have
exceeded their rate limits". -/
theorem selectProvider_noProviders_iff (config : AIRouterConfig)
    (hasManager : Bool) (request : Option ChatRequest) (rand : ℚ)
    (st : Store) (now : Nat) :
    ((selectProvider config hasManager request rand st now).1 =
        Except.error "No providers configured" ↔ config.providers = [])
    ∧ (config.providers ≠ [] → flattenCandidates config = [] →
        config.strategy = some "rate-limit-aware" → hasManager = true →
        (selectProvider config hasManager request rand st now).1 =
          Except.error "All accounts have exceeded their rate limits") := by
  constructor
  · constructor
    · intro h
      by_contra hne
      have hprov : config.providers.isEmpty = false := by
        cases hp : config.providers with
        | nil => exact absurd hp hne
        | cons a as => rfl
      rw [selectProvider] at h
      rw [if_neg (by simp [hprov])] at h
      by_cases h1 : config.strategy = some "random" ∨ config.strategy = none
      · rw [if_pos h1] at h
        exact Except.noConfusion h
      · rw [if_neg h1] at h
        by_cases h2 : config.strategy = some "rate-limit-aware"
        · rw [if_pos h2] at h
          cases hasManager with
          | false =>
            simp only [Bool.not_false, if_true] at h
            exact absurd (Except.error.inj h) (by decide)
          | true =>
            simp only [Bool.not_true, Bool.false_eq_true, if_false] at h
            exact selectRLA_ne_noProviders _ _ _ _ h
        · rw [if_neg h2] at h
          exact absurd (Except.error.inj h) (by decide)
    · intro h
      rw [selectProvider, if_pos (by simp [h])]
  · intro hne hflat hstrat hmgr
    subst hmgr
    have hprov : config.providers.isEmpty = false := by
      cases hp : config.providers with
      | nil => exact absurd hp hne
      | cons a as => rfl
    rw [selectProvider]
    rw [if_neg (by simp [hprov])]
    rw [if_neg (by simp [hstrat])]
    rw [if_pos hstrat]
    simp only [Bool.not_true, Bool.false_eq_true, if_false]
    rw [selectRateLimitAwareProvider, hflat]
    rfl

/-- Counterexample to C4 as stated: `cfgNoCandidates` has a non-empty
providers list whose only account has no models, so the flattened
candidate list is empty — yet `selectProvider` fails with
"All accounts have exceeded their rate limits", not
"No providers configured". -/
theorem selectProvider_empty_flatten_counterexample :
    flattenCandidates cfgNoCandidates = []
    ∧ (selectProvider cfgNoCandidates true none 0 [] 0).1 =
        Except.error "All accounts have exceeded their rate limits"
    ∧ ¬ ((selectProvider cfgNoCandidates true none 0 [] 0).1 =
        Except.error "No providers configured") := by
  have hsel : (selectProvider cfgNoCandidates true none 0 [] 0).1 =
      Except.error "All accounts have exceeded their rate limits" := by
    rw [selectProvider]
    rw [if_neg (by simp [cfgNoCandidates])]
    rw [if_neg (by simp [cfgNoCandidates])]
    rw [if_pos (show cfgNoCandidates.strategy = some "rate-limit-aware" from rfl)]
    simp only [Bool.not_true, Bool.false_eq_true, if_false]
    rw [selectRateLimitAwareProvider]
    rfl
  refine ⟨rfl, hsel, ?_⟩
  intro h
  rw [hsel] at h
  exact absurd (Except.error.inj h) (by decide)

/-! ## Dispatcher failure recording -/

/-- C2: whenever the dispatch fails (the fetch promise rejects, the
response status is non-2xx, or the body fails to parse), the
rate-limit-aware `sendRequest` calls `recordRequest` with zero tokens
for the account that was used before rethrowing the original error
unchanged; the usage of the recorded identity shows `requestsThisMinute`
and `requestsToday` incremented by 1 and `tokensThisMinute` unchanged.
(The source passes the literal `0` in the `model` parameter position
of `recordRequest`, so the identity recorded is the one keyed by the
apiKey of the account and the string "0"; the claim constrains only the
account, which matches.)  The `hasInc` parameter covers both storage
paths. -/
theorem sendRequest_failure_records (pm : ProviderModel) (cfg : AIRouterConfig)
    (account : Account) (hasInc : Bool) (outcome : FetchOutcome)
    (st : Store) (now : Nat) (e : String) (u : UsageData)
    (hacc : pm.account = some account)
    (hstrat : cfg.strategy = some "rate-limit-aware")
    (herr : outcomeError outcome = some e)
    (hst : Store.get st (getAccountModelIdentifier account "0") = some u)
    (hm : u.lastResetTime.minute = bucketMinute now)
    (hd : u.lastResetTime.day = bucketDay now) :
    (sendRequest pm (some cfg) true hasInc outcome st now).1 = Except.error e
    ∧ Store.get (sendRequest pm (some cfg) true hasInc outcome st now).2
        (getAccountModelIdentifier account "0") =
      some { id := u.id
             requestsThisMinute := u.requestsThisMinute + 1
             tokensThisMinute := u.tokensThisMinute
             requestsToday := u.requestsToday + 1
             lastResetTime := u.lastResetTime } := by
  have hrec : recordingEnabled (some cfg) true pm = true := by
    simp [recordingEnabled, hstrat, hacc]
  have hrecord : recordRequest account "0" 0 hasInc st now =
      Store.set st (getAccountModelIdentifier account "0")
        { id := u.id
          requestsThisMinute := u.requestsThisMinute + 1
          tokensThisMinute := u.tokensThisMinute + 0
          requestsToday := u.requestsToday + 1
          lastResetTime := u.lastResetTime } :=
    recordRequest_stored account "0" 0 hasInc st now u hst hm hd
  cases outcome with
  | fail msg =>
    have he : msg = e := by simpa [outcomeError] using herr
    subst he
    constructor
    · simp [sendRequest]
    · simp [sendRequest, hrec, hacc, hrecord, store_get_set_self]
  | resp ok status statusText body =>
    cases ok with
    | false =>
      have he : ("Request failed: " ++ toString status ++ " " ++ statusText) = e := by
        simpa [outcomeError] using herr
      subst he
      constructor
      · simp [sendRequest]
      · simp [sendRequest, hrec, hacc, hrecord, store_get_set_self]
    | true =>
      cases body with
      | error eb =>
        have he : eb = e := by simpa [outcomeError] using herr
        subst he
        constructor
        · simp [sendRequest]
        · simp [sendRequest, hrec, hacc, hrecord, store_get_set_self]
      | ok data =>
        simp [outcomeError] at herr

/-- Witness for C2: a rejected fetch ("boom") is rethrown unchanged and
the prior usage (2 requests, 7 tokens, 3 today) becomes
(3 requests, 7 tokens, 4 today). -/
theorem sendRequest_failure_records_witness :
    (sendRequest pmLimited (some cfgRla) true true (FetchOutcome.fail "boom")
        storeFailureKey 0).1 = Except.error "boom"
    ∧ Store.get (sendRequest pmLimited (some cfgRla) true true
        (FetchOutcome.fail "boom") storeFailureKey 0).2
        (getAccountModelIdentifier acctLimited "0") =
      some { id := none, requestsThisMinute := 3, tokensThisMinute := 7,
             requestsToday := 4, lastResetTime := { minute := 0, day := 0 } } :=
  sendRequest_failure_records pmLimited cfgRla acctLimited true
    (FetchOutcome.fail "boom") storeFailureKey 0 "boom"
    { id := none, requestsThisMinute := 2, tokensThisMinute := 7,
      requestsToday := 3, lastResetTime := { minute := 0, day := 0 } }
    rfl rfl rfl
    (by simp [storeFailureKey, Store.get, List.find?]) rfl rfl

end AIRouter
